import Mathlib

/-!
Verification development for the WarpX numerical core.

The finite-difference part embeds
`Source/FieldSolver/FiniteDifferenceSolver/FiniteDifferenceAlgorithms/CartesianCKCAlgorithm.H`
over exact rational arithmetic: `amrex::Real` becomes `ℚ`, a grid field
becomes a function `ℤ → ℤ → ℤ → ℚ`, and the two compile-time configurations
(`WARPX_DIM_3D` and `WARPX_DIM_XZ`) become two separate sets of definitions.
The particle part embeds `Source/Particles/ElementaryProcess/QEDPairGeneration.H`
and `Source/Particles/WarpXParticleContainer.H`.
-/

namespace WarpX

/-- The five stored stencil coefficients for one axis, matching the layout
written by `InitializeStencilCoefficients` into `stencil_coefs_*[0..4]`:
`c0 = inv_d`, `c1 = alpha`, `c2`/`c3` = the two cross betas (in the stored
order of the source), `c4 = gamma*inv_d`.  Slot 5 of the source vector is
never written nor read, so it is omitted. -/
structure StencilCoefs where
  c0 : ℚ
  c1 : ℚ
  c2 : ℚ
  c3 : ℚ
  c4 : ℚ
deriving Repr, DecidableEq

namespace CKC3D

/-- `delta = std::max({inv_dx, inv_dy, inv_dz})` (3-D branch, line 38). -/
def ckc_delta (dx dy dz : ℚ) : ℚ := max (max (1/dx) (1/dy)) (1/dz)

/-- `rx = (inv_dx/delta)*(inv_dx/delta)` (line 39). -/
def ckc_rx (dx dy dz : ℚ) : ℚ :=
  ((1/dx)/ckc_delta dx dy dz) * ((1/dx)/ckc_delta dx dy dz)

/-- `ry = (inv_dy/delta)*(inv_dy/delta)` (line 40). -/
def ckc_ry (dx dy dz : ℚ) : ℚ :=
  ((1/dy)/ckc_delta dx dy dz) * ((1/dy)/ckc_delta dx dy dz)

/-- `rz = (inv_dz/delta)*(inv_dz/delta)` (line 41). -/
def ckc_rz (dx dy dz : ℚ) : ℚ :=
  ((1/dz)/ckc_delta dx dy dz) * ((1/dz)/ckc_delta dx dy dz)

/-- The recurring denominator `ry*rz + rz*rx + rx*ry` of lines 42 and 49. -/
def ckc_rdenom (dx dy dz : ℚ) : ℚ :=
  ckc_ry dx dy dz * ckc_rz dx dy dz + ckc_rz dx dy dz * ckc_rx dx dy dz
    + ckc_rx dx dy dz * ckc_ry dx dy dz

/-- `beta = 0.125*(1 - rx*ry*rz/(ry*rz + rz*rx + rx*ry))` (line 42). -/
def ckc_beta (dx dy dz : ℚ) : ℚ :=
  0.125 * (1 - ckc_rx dx dy dz * ckc_ry dx dy dz * ckc_rz dx dy dz / ckc_rdenom dx dy dz)

/-- `betaxy = ry*beta*inv_dx` (line 43). -/
def ckc_betaxy (dx dy dz : ℚ) : ℚ := ckc_ry dx dy dz * ckc_beta dx dy dz * (1/dx)

/-- `betaxz = rz*beta*inv_dx` (line 44). -/
def ckc_betaxz (dx dy dz : ℚ) : ℚ := ckc_rz dx dy dz * ckc_beta dx dy dz * (1/dx)

/-- `betayx = rx*beta*inv_dy` (line 45). -/
def ckc_betayx (dx dy dz : ℚ) : ℚ := ckc_rx dx dy dz * ckc_beta dx dy dz * (1/dy)

/-- `betayz = rz*beta*inv_dy` (line 46). -/
def ckc_betayz (dx dy dz : ℚ) : ℚ := ckc_rz dx dy dz * ckc_beta dx dy dz * (1/dy)

/-- `betazx = rx*beta*inv_dz` (line 47). -/
def ckc_betazx (dx dy dz : ℚ) : ℚ := ckc_rx dx dy dz * ckc_beta dx dy dz * (1/dz)

/-- `betazy = ry*beta*inv_dz` (line 48). -/
def ckc_betazy (dx dy dz : ℚ) : ℚ := ckc_ry dx dy dz * ckc_beta dx dy dz * (1/dz)

/-- `gammax = ry*rz*(0.0625 - 0.125*ry*rz*inv_r_fac)` (line 50),
with `inv_r_fac = 1/(ry*rz + rz*rx + rx*ry)` (line 49). -/
def ckc_gammax (dx dy dz : ℚ) : ℚ :=
  ckc_ry dx dy dz * ckc_rz dx dy dz *
    (0.0625 - 0.125 * ckc_ry dx dy dz * ckc_rz dx dy dz * (1/ckc_rdenom dx dy dz))

/-- `gammay = rx*rz*(0.0625 - 0.125*rx*rz*inv_r_fac)` (line 51). -/
def ckc_gammay (dx dy dz : ℚ) : ℚ :=
  ckc_rx dx dy dz * ckc_rz dx dy dz *
    (0.0625 - 0.125 * ckc_rx dx dy dz * ckc_rz dx dy dz * (1/ckc_rdenom dx dy dz))

/-- `gammaz = rx*ry*(0.0625 - 0.125*rx*ry*inv_r_fac)` (line 52). -/
def ckc_gammaz (dx dy dz : ℚ) : ℚ :=
  ckc_rx dx dy dz * ckc_ry dx dy dz *
    (0.0625 - 0.125 * ckc_rx dx dy dz * ckc_ry dx dy dz * (1/ckc_rdenom dx dy dz))

/-- `alphax = (1 - 2*ry*beta - 2*rz*beta - 4*gammax)*inv_dx` (line 53). -/
def ckc_alphax (dx dy dz : ℚ) : ℚ :=
  (1 - 2*ckc_ry dx dy dz*ckc_beta dx dy dz - 2*ckc_rz dx dy dz*ckc_beta dx dy dz
    - 4*ckc_gammax dx dy dz) * (1/dx)

/-- `alphay = (1 - 2*rx*beta - 2*rz*beta - 4*gammay)*inv_dy` (line 54). -/
def ckc_alphay (dx dy dz : ℚ) : ℚ :=
  (1 - 2*ckc_rx dx dy dz*ckc_beta dx dy dz - 2*ckc_rz dx dy dz*ckc_beta dx dy dz
    - 4*ckc_gammay dx dy dz) * (1/dy)

/-- `alphaz = (1 - 2*rx*beta - 2*ry*beta - 4*gammaz)*inv_dz` (line 55). -/
def ckc_alphaz (dx dy dz : ℚ) : ℚ :=
  (1 - 2*ckc_rx dx dy dz*ckc_beta dx dy dz - 2*ckc_ry dx dy dz*ckc_beta dx dy dz
    - 4*ckc_gammaz dx dy dz) * (1/dz)

/-- `CartesianCKCAlgorithm::InitializeStencilCoefficients`, 3-D branch
(`WARPX_DIM_3D`): returns the triple `(stencil_coefs_x, stencil_coefs_y,
stencil_coefs_z)` in the stored order of lines 73–90. -/
def InitializeStencilCoefficients (dx dy dz : ℚ) :
    StencilCoefs × StencilCoefs × StencilCoefs :=
  (⟨1/dx, ckc_alphax dx dy dz, ckc_betaxy dx dy dz, ckc_betaxz dx dy dz,
      ckc_gammax dx dy dz * (1/dx)⟩,
   ⟨1/dy, ckc_alphay dx dy dz, ckc_betayz dx dy dz, ckc_betayx dx dy dz,
      ckc_gammay dx dy dz * (1/dy)⟩,
   ⟨1/dz, ckc_alphaz dx dy dz, ckc_betazx dx dy dz, ckc_betazy dx dy dz,
      ckc_gammaz dx dy dz * (1/dz)⟩)

/-- `CartesianCKCAlgorithm::UpwardDx`, 3-D branch (lines 96–118). -/
def UpwardDx (F : ℤ → ℤ → ℤ → ℚ) (coefs_x : StencilCoefs) (i j k : ℤ) : ℚ :=
  let alphax := coefs_x.c1
  let betaxy := coefs_x.c2
  let betaxz := coefs_x.c3
  let gammax := coefs_x.c4
  alphax * (F (i+1) j k - F i j k)
    + betaxy * (F (i+1) (j+1) k - F i (j+1) k
             +  (F (i+1) (j-1) k - F i (j-1) k))
    + betaxz * (F (i+1) j (k+1) - F i j (k+1)
             +  (F (i+1) j (k-1) - F i j (k-1)))
    + gammax * (F (i+1) (j+1) (k+1) - F i (j+1) (k+1)
             +  (F (i+1) (j-1) (k+1) - F i (j-1) (k+1))
             +  (F (i+1) (j+1) (k-1) - F i (j+1) (k-1))
             +  (F (i+1) (j-1) (k-1) - F i (j-1) (k-1)))

/-- `CartesianCKCAlgorithm::DownwardDx`, 3-D branch (lines 129–136). -/
def DownwardDx (F : ℤ → ℤ → ℤ → ℚ) (coefs_x : StencilCoefs) (i j k : ℤ) : ℚ :=
  let inv_dx := coefs_x.c0
  inv_dx * (F i j k - F (i-1) j k)

/-- `CartesianCKCAlgorithm::UpwardDy`, 3-D branch (lines 141–160). -/
def UpwardDy (F : ℤ → ℤ → ℤ → ℚ) (coefs_y : StencilCoefs) (i j k : ℤ) : ℚ :=
  let alphay := coefs_y.c1
  let betayz := coefs_y.c2
  let betayx := coefs_y.c3
  let gammay := coefs_y.c4
  alphay * (F i (j+1) k - F i j k)
    + betayx * (F (i+1) (j+1) k - F (i+1) j k
             +  (F (i-1) (j+1) k - F (i-1) j k))
    + betayz * (F i (j+1) (k+1) - F i j (k+1)
             +  (F i (j+1) (k-1) - F i j (k-1)))
    + gammay * (F (i+1) (j+1) (k+1) - F (i+1) j (k+1)
             +  (F (i-1) (j+1) (k+1) - F (i-1) j (k+1))
             +  (F (i+1) (j+1) (k-1) - F (i+1) j (k-1))
             +  (F (i-1) (j+1) (k-1) - F (i-1) j (k-1)))

/-- `CartesianCKCAlgorithm::DownwardDy`, 3-D branch (lines 169–177). -/
def DownwardDy (F : ℤ → ℤ → ℤ → ℚ) (coefs_y : StencilCoefs) (i j k : ℤ) : ℚ :=
  let inv_dy := coefs_y.c0
  inv_dy * (F i j k - F i (j-1) k)

/-- `CartesianCKCAlgorithm::UpwardDz`, 3-D branch (lines 186–207). -/
def UpwardDz (F : ℤ → ℤ → ℤ → ℚ) (coefs_z : StencilCoefs) (i j k : ℤ) : ℚ :=
  let alphaz := coefs_z.c1
  let betazx := coefs_z.c2
  let betazy := coefs_z.c3
  let gammaz := coefs_z.c4
  alphaz * (F i j (k+1) - F i j k)
    + betazx * (F (i+1) j (k+1) - F (i+1) j k
             +  (F (i-1) j (k+1) - F (i-1) j k))
    + betazy * (F i (j+1) (k+1) - F i (j+1) k
             +  (F i (j-1) (k+1) - F i (j-1) k))
    + gammaz * (F (i+1) (j+1) (k+1) - F (i+1) (j+1) k
             +  (F (i-1) (j+1) (k+1) - F (i-1) (j+1) k)
             +  (F (i+1) (j-1) (k+1) - F (i+1) (j-1) k)
             +  (F (i-1) (j-1) (k+1) - F (i-1) (j-1) k))

/-- `CartesianCKCAlgorithm::DownwardDz`, 3-D branch (lines 218–225). -/
def DownwardDz (F : ℤ → ℤ → ℤ → ℚ) (coefs_z : StencilCoefs) (i j k : ℤ) : ℚ :=
  let inv_dz := coefs_z.c0
  inv_dz * (F i j k - F i j (k-1))

end CKC3D

namespace CKCXZ

/-- `delta = std::max(inv_dx, inv_dz)` (XZ branch, line 57). -/
def ckc_delta (dx dz : ℚ) : ℚ := max (1/dx) (1/dz)

/-- `rx = (inv_dx/delta)*(inv_dx/delta)` (line 58). -/
def ckc_rx (dx dz : ℚ) : ℚ := ((1/dx)/ckc_delta dx dz) * ((1/dx)/ckc_delta dx dz)

/-- `rz = (inv_dz/delta)*(inv_dz/delta)` (line 59). -/
def ckc_rz (dx dz : ℚ) : ℚ := ((1/dz)/ckc_delta dx dz) * ((1/dz)/ckc_delta dx dz)

/-- `betaxz = beta*rz*inv_dx` with `beta = 0.125` (lines 60–61). -/
def ckc_betaxz (dx dz : ℚ) : ℚ := 0.125 * ckc_rz dx dz * (1/dx)

/-- `betazx = beta*rx*inv_dz` (line 62). -/
def ckc_betazx (dx dz : ℚ) : ℚ := 0.125 * ckc_rx dx dz * (1/dz)

/-- `alphax = (1 - 2*rz*beta)*inv_dx` (line 63). -/
def ckc_alphax (dx dz : ℚ) : ℚ := (1 - 2 * ckc_rz dx dz * 0.125) * (1/dx)

/-- `alphaz = (1 - 2*rx*beta)*inv_dz` (line 64). -/
def ckc_alphaz (dx dz : ℚ) : ℚ := (1 - 2 * ckc_rx dx dz * 0.125) * (1/dz)

/-- `CartesianCKCAlgorithm::InitializeStencilCoefficients`, XZ branch
(`WARPX_DIM_XZ`, lines 56–69): `gammax`, `gammay`, `gammaz`, `betaxy`,
`betazy`, `betayx`, `betayz` and `alphay` are the literal constant 0
(lines 67–69); the same storing order (lines 73–90) applies. -/
def InitializeStencilCoefficients (dx dy dz : ℚ) :
    StencilCoefs × StencilCoefs × StencilCoefs :=
  (⟨1/dx, ckc_alphax dx dz, 0, ckc_betaxz dx dz, 0 * (1/dx)⟩,
   ⟨1/dy, 0, 0, 0, 0 * (1/dy)⟩,
   ⟨1/dz, ckc_alphaz dx dz, ckc_betazx dx dz, 0, 0 * (1/dz)⟩)

/-- `CartesianCKCAlgorithm::UpwardDx`, XZ branch (lines 119–122);
in this configuration `j` is the index along z. -/
def UpwardDx (F : ℤ → ℤ → ℤ → ℚ) (coefs_x : StencilCoefs) (i j k : ℤ) : ℚ :=
  let alphax := coefs_x.c1
  let betaxz := coefs_x.c3
  alphax * (F (i+1) j k - F i j k)
    + betaxz * (F (i+1) (j+1) k - F i (j+1) k
             +  (F (i+1) (j-1) k - F i (j-1) k))

/-- `CartesianCKCAlgorithm::DownwardDx`, XZ branch (lines 129–136,
dimension-independent). -/
def DownwardDx (F : ℤ → ℤ → ℤ → ℚ) (coefs_x : StencilCoefs) (i j k : ℤ) : ℚ :=
  let inv_dx := coefs_x.c0
  inv_dx * (F i j k - F (i-1) j k)

/-- `CartesianCKCAlgorithm::UpwardDy`, XZ branch (line 162): `return 0`. -/
def UpwardDy (_F : ℤ → ℤ → ℤ → ℚ) (_coefs_y : StencilCoefs) (_i _j _k : ℤ) : ℚ := 0

/-- `CartesianCKCAlgorithm::DownwardDy`, XZ branch (line 179): `return 0`. -/
def DownwardDy (_F : ℤ → ℤ → ℤ → ℚ) (_coefs_y : StencilCoefs) (_i _j _k : ℤ) : ℚ := 0

/-- `CartesianCKCAlgorithm::UpwardDz`, XZ branch (lines 209–211). -/
def UpwardDz (F : ℤ → ℤ → ℤ → ℚ) (coefs_z : StencilCoefs) (i j k : ℤ) : ℚ :=
  let alphaz := coefs_z.c1
  let betazx := coefs_z.c2
  alphaz * (F i (j+1) k - F i j k)
    + betazx * (F (i+1) (j+1) k - F (i+1) j k
             +  (F (i-1) (j+1) k - F (i-1) j k))

/-- `CartesianCKCAlgorithm::DownwardDz`, XZ branch (line 227). -/
def DownwardDz (F : ℤ → ℤ → ℤ → ℚ) (coefs_z : StencilCoefs) (i j k : ℤ) : ℚ :=
  let inv_dz := coefs_z.c0
  inv_dz * (F i j k - F i (j-1) k)

end CKCXZ

/-! ## Particle data model

Embedding of the per-species struct-of-arrays particle storage used by
`QEDPairGeneration.H`: a particle-tile's real data `m_rdata[comp][i]`
becomes a function `ℕ → ℕ → ℚ`, the runtime (user-registered) real data
`m_runtime_rdata[comp][i]` likewise, and the array-of-structs ids
`m_aos[i].id()` a function `ℕ → ℤ`. -/

/-! `PIdx` (WarpXParticleContainer.H, lines 31–41), without the
`WARPX_DIM_RZ`-only `theta` entry: the reserved struct-of-array attribute
slots of every species. -/

namespace PIdx

def w : ℕ := 0
def ux : ℕ := 1
def uy : ℕ := 2
def uz : ℕ := 3
def Ex : ℕ := 4
def Ey : ℕ := 5
def Ez : ℕ := 6
def Bx : ℕ := 7
def By : ℕ := 8
def Bz : ℕ := 9
def nattribs : ℕ := 10

end PIdx

/-- Source-species particle tile data: compile-time real components
(`m_rdata`, indexed by a `PIdx` slot), runtime real components
(`m_runtime_rdata`, e.g. the optical depth) and the id of each particle
(`m_aos[i].id()`). -/
structure SrcData where
  m_rdata : ℕ → ℕ → ℚ
  m_runtime_rdata : ℕ → ℕ → ℚ
  m_aos_id : ℕ → ℤ

/-- Destination-species particle tile data: only the compile-time real
components are touched by the transform functor. -/
structure DstData where
  m_rdata : ℕ → ℕ → ℚ

/-- The pointwise write `d.m_rdata[c][i] = v` on a destination tile. -/
def DstData.setR (d : DstData) (c i : ℕ) (v : ℚ) : DstData :=
  ⟨fun c2 i2 => if c2 = c ∧ i2 = i then v else d.m_rdata c2 i2⟩

/-- Modelled from the spec: `PhysConst::m_e` (the electron mass, SI), a
constant from `Utils/WarpXConst.H` which is not part of the sources at
hand; only the fact that it is a fixed strictly positive real matters to
the claims, and it is taken here as the CODATA value the spec's era of the
code uses. -/
def m_e : ℚ := 9.10938356e-31

/-- The outputs written by the pair-creation sampling collaborator through
its eight output pointers: daughter momenta and weights. -/
structure PairProducts where
  e_px : ℚ
  e_py : ℚ
  e_pz : ℚ
  p_px : ℚ
  p_py : ℚ
  p_pz : ℚ
  e_w : ℚ
  p_w : ℚ

/-- Modelled from the spec: the type of `BreitWheelerGeneratePairs`
(declared in `QEDInternals/BreitWheelerEngineWrapper.H`, not among the
sources at hand) — the opaque pair-creation sampling collaborator that,
from the photon momentum `(px, py, pz)`, the local fields
`(ex, ey, ez, bx, by, bz)` and the photon weight `w`, supplies daughter
momenta and weights. -/
def BreitWheelerGeneratePairs : Type :=
  ℚ → ℚ → ℚ → ℚ → ℚ → ℚ → ℚ → ℚ → ℚ → ℚ → PairProducts

/-- `PairGenerationFilterFunc::operator()` (QEDPairGeneration.H, lines
47–56): reads the optical depth at runtime component
`m_opt_depth_runtime_comp` of particle `i` and returns `opt_depth < 0`. -/
def PairGenerationFilterFunc (m_opt_depth_runtime_comp : ℕ)
    (ptd : SrcData) (i : ℕ) : Bool :=
  let opt_depth := ptd.m_runtime_rdata m_opt_depth_runtime_comp i
  decide (opt_depth < 0)

/-- `PairGenerationTransformFunc::operator()` (QEDPairGeneration.H, lines
93–151): reads weight, momentum and gathered fields of source particle
`i_src`, multiplies the stored momentum by the electron mass, calls the
pair-creation collaborator, writes weight and momentum (divided back by
the electron mass) of the two destination slots, and sets the source id
to `-1`.  Returns the updated `(dst1, dst2, src)`. -/
def PairGenerationTransformFunc (m_generate_functor : BreitWheelerGeneratePairs)
    (dst1 dst2 : DstData) (src : SrcData)
    (i_src i_dst1 i_dst2 : ℕ) : DstData × DstData × SrcData :=
  let me := m_e
  let one_over_me := 1/me
  let w := src.m_rdata PIdx.w i_src
  let ux := src.m_rdata PIdx.ux i_src
  let uy := src.m_rdata PIdx.uy i_src
  let uz := src.m_rdata PIdx.uz i_src
  let ex := src.m_rdata PIdx.Ex i_src
  let ey := src.m_rdata PIdx.Ey i_src
  let ez := src.m_rdata PIdx.Ez i_src
  let bx := src.m_rdata PIdx.Bx i_src
  let by2 := src.m_rdata PIdx.By i_src
  let bz := src.m_rdata PIdx.Bz i_src
  let px := ux*me
  let py := uy*me
  let pz := uz*me
  let out := m_generate_functor px py pz ex ey ez bx by2 bz w
  let dst1 := (((dst1.setR PIdx.w i_dst1 out.e_w).setR
      PIdx.ux i_dst1 (out.e_px*one_over_me)).setR
      PIdx.uy i_dst1 (out.e_py*one_over_me)).setR
      PIdx.uz i_dst1 (out.e_pz*one_over_me)
  let dst2 := (((dst2.setR PIdx.w i_dst2 out.p_w).setR
      PIdx.ux i_dst2 (out.p_px*one_over_me)).setR
      PIdx.uy i_dst2 (out.p_py*one_over_me)).setR
      PIdx.uz i_dst2 (out.p_pz*one_over_me)
  let src := { src with m_aos_id := fun j => if j = i_src then -1 else src.m_aos_id j }
  (dst1, dst2, src)

/-- Modelled from the spec: the generic particle-creation driver (an
external collaborator, §5/§6 of the spec) that processes the flagged
source photons in order, giving the `n`-th one the freshly allocated
destination slot `n` (deterministic prefix count) in each destination
species, and applies `PairGenerationTransformFunc` once per photon. -/
def processFlagged (gen : BreitWheelerGeneratePairs) :
    List ℕ → ℕ → DstData → DstData → SrcData → DstData × DstData × SrcData
  | [], _, dst1, dst2, src => (dst1, dst2, src)
  | i :: rest, n, dst1, dst2, src =>
      let r := PairGenerationTransformFunc gen dst1 dst2 src i n n
      processFlagged gen rest (n+1) r.1 r.2.1 r.2.2

/-- The collaborator's outputs for the call made on source particle `idx`
of tile `src` (the transform hands the collaborator the stored momentum
multiplied by the electron mass, the gathered fields, and the weight). -/
def callProducts (gen : BreitWheelerGeneratePairs) (src : SrcData) (idx : ℕ) :
    PairProducts :=
  gen (src.m_rdata PIdx.ux idx * m_e) (src.m_rdata PIdx.uy idx * m_e)
      (src.m_rdata PIdx.uz idx * m_e)
      (src.m_rdata PIdx.Ex idx) (src.m_rdata PIdx.Ey idx) (src.m_rdata PIdx.Ez idx)
      (src.m_rdata PIdx.Bx idx) (src.m_rdata PIdx.By idx) (src.m_rdata PIdx.Bz idx)
      (src.m_rdata PIdx.w idx)

/-! ## Attribute schema (WarpXParticleContainer::AddRealComp)

`amrex::ParticleContainer<0,0,PIdx::nattribs>::NumRealComps()` returns the
number of compile-time real components (`PIdx::nattribs`) plus the number
of runtime real components added so far; the base-class `AddRealComp(comm)`
appends one runtime real component.  The relevant container state is the
current component count and the two name→slot maps. -/

/-- The schema-relevant state of a `WarpXParticleContainer`:
`num_real` is `NumRealComps()`, and the two maps are `particle_comps`
and `particle_runtime_comps` (name → slot). -/
structure PCState where
  num_real : ℕ
  particle_comps : String → Option ℤ
  particle_runtime_comps : String → Option ℤ

/-- A freshly constructed container: no runtime components yet, so
`NumRealComps() = PIdx::nattribs`, and both maps empty. -/
def initPCState : PCState :=
  ⟨PIdx.nattribs, fun _ => none, fun _ => none⟩

/-- `WarpXParticleContainer::AddRealComp(name, comm)`
(WarpXParticleContainer.H, lines 289–294):
`particle_comps[name] = NumRealComps(); particle_runtime_comps[name] =
NumRealComps() - PIdx::nattribs;` then the base-class `AddRealComp(comm)`
appends one runtime component (incrementing `NumRealComps()`). -/
def AddRealComp (s : PCState) (name : String) : PCState :=
  { num_real := s.num_real + 1
    particle_comps := fun n => if n = name then some (s.num_real : ℤ) else s.particle_comps n
    particle_runtime_comps := fun n =>
      if n = name then some ((s.num_real : ℤ) - (PIdx.nattribs : ℤ))
      else s.particle_runtime_comps n }

/-- A configuration-time sequence of attribute registrations. -/
def registerAll (s : PCState) (names : List String) : PCState :=
  names.foldl AddRealComp s

/-- The pair-creation test double of the spec's end-to-end property: it
returns daughter momenta `(px/2, py/2, pz/2)` for both daughters, each
with weight 1, ignoring the gathered fields and the source weight. -/
def halfPairGen : BreitWheelerGeneratePairs :=
  fun px py pz _ex _ey _ez _bx _by2 _bz _w =>
    ⟨px/2, py/2, pz/2, px/2, py/2, pz/2, 1, 1⟩

end WarpX


/-! ## Theorems -/

namespace WarpX

/-- C1, counterexample: at the uniform cubic spacing `dx = dy = dz = 1` the
3-D builder does NOT yield `beta = 0`, `gamma = 0` and `alpha = 1/dx`:
the stored cross-beta is `1/12 ≠ 0`, the stored gamma term is `1/48 ≠ 0`,
and `alpha = 7/12 ≠ 1 = 1/dx`, so the upward derivative does not reduce to
the plain two-point centered difference. -/
theorem uniform_cubic_not_plain_stencil :
    (CKC3D.InitializeStencilCoefficients 1 1 1).1.c2 ≠ 0 ∧
    (CKC3D.InitializeStencilCoefficients 1 1 1).1.c4 ≠ 0 ∧
    (CKC3D.InitializeStencilCoefficients 1 1 1).1.c1 ≠ (CKC3D.InitializeStencilCoefficients 1 1 1).1.c0 := by
  norm_num [CKC3D.InitializeStencilCoefficients, CKC3D.ckc_betaxy, CKC3D.ckc_gammax,
    CKC3D.ckc_alphax, CKC3D.ckc_beta, CKC3D.ckc_rx, CKC3D.ckc_ry, CKC3D.ckc_rz,
    CKC3D.ckc_rdenom, CKC3D.ckc_delta]

/-- C1, amended: for uniform cubic spacing `dx = dy = dz = d > 0`, the 3-D
`InitializeStencilCoefficients` yields, on every axis, `beta = 1/12`
(each stored cross-beta equal to `(1/12)·(1/d)`), a stored gamma term
`(1/48)·(1/d)` and `alpha = (7/12)·(1/d)` — the Cole-Karkkainen-Cowan
corrected stencil, not the standard two-point centered difference. -/
theorem uniform_cubic_coefficients (d : ℚ) (hd : 0 < d) :
    CKC3D.InitializeStencilCoefficients d d d =
      (⟨1/d, (7/12)*(1/d), (1/12)*(1/d), (1/12)*(1/d), (1/48)*(1/d)⟩,
       ⟨1/d, (7/12)*(1/d), (1/12)*(1/d), (1/12)*(1/d), (1/48)*(1/d)⟩,
       ⟨1/d, (7/12)*(1/d), (1/12)*(1/d), (1/12)*(1/d), (1/48)*(1/d)⟩) := by
  have hd0 : d ≠ 0 := ne_of_gt hd
  have hdelta : CKC3D.ckc_delta d d d = 1/d := by
    simp [CKC3D.ckc_delta]
  have hr : (1/d)/CKC3D.ckc_delta d d d = 1 := by
    rw [hdelta]; exact div_self (one_div_ne_zero hd0)
  have hrx : CKC3D.ckc_rx d d d = 1 := by rw [CKC3D.ckc_rx, hr]; norm_num
  have hry : CKC3D.ckc_ry d d d = 1 := by rw [CKC3D.ckc_ry, hr]; norm_num
  have hrz : CKC3D.ckc_rz d d d = 1 := by rw [CKC3D.ckc_rz, hr]; norm_num
  have hden : CKC3D.ckc_rdenom d d d = 3 := by
    rw [CKC3D.ckc_rdenom, hrx, hry, hrz]; norm_num
  have hbeta : CKC3D.ckc_beta d d d = 1/12 := by
    rw [CKC3D.ckc_beta, hrx, hry, hrz, hden]; norm_num
  have hgx : CKC3D.ckc_gammax d d d = 1/48 := by
    rw [CKC3D.ckc_gammax, hry, hrz, hden]; norm_num
  have hgy : CKC3D.ckc_gammay d d d = 1/48 := by
    rw [CKC3D.ckc_gammay, hrx, hrz, hden]; norm_num
  have hgz : CKC3D.ckc_gammaz d d d = 1/48 := by
    rw [CKC3D.ckc_gammaz, hrx, hry, hden]; norm_num
  have hax : CKC3D.ckc_alphax d d d = (7/12)*(1/d) := by
    rw [CKC3D.ckc_alphax, hry, hrz, hbeta, hgx]; norm_num
  have hay : CKC3D.ckc_alphay d d d = (7/12)*(1/d) := by
    rw [CKC3D.ckc_alphay, hrx, hrz, hbeta, hgy]; norm_num
  have haz : CKC3D.ckc_alphaz d d d = (7/12)*(1/d) := by
    rw [CKC3D.ckc_alphaz, hrx, hry, hbeta, hgz]; norm_num
  have hbxy : CKC3D.ckc_betaxy d d d = (1/12)*(1/d) := by
    rw [CKC3D.ckc_betaxy, hry, hbeta]; ring
  have hbxz : CKC3D.ckc_betaxz d d d = (1/12)*(1/d) := by
    rw [CKC3D.ckc_betaxz, hrz, hbeta]; ring
  have hbyx : CKC3D.ckc_betayx d d d = (1/12)*(1/d) := by
    rw [CKC3D.ckc_betayx, hrx, hbeta]; ring
  have hbyz : CKC3D.ckc_betayz d d d = (1/12)*(1/d) := by
    rw [CKC3D.ckc_betayz, hrz, hbeta]; ring
  have hbzx : CKC3D.ckc_betazx d d d = (1/12)*(1/d) := by
    rw [CKC3D.ckc_betazx, hrx, hbeta]; ring
  have hbzy : CKC3D.ckc_betazy d d d = (1/12)*(1/d) := by
    rw [CKC3D.ckc_betazy, hry, hbeta]; ring
  simp only [CKC3D.InitializeStencilCoefficients, hax, hay, haz, hbxy, hbxz,
    hbyx, hbyz, hbzx, hbzy, hgx, hgy, hgz]

/-- Witness for the amended C1 at the concrete spacing `d = 2`. -/
theorem uniform_cubic_coefficients_witness :
    CKC3D.InitializeStencilCoefficients 2 2 2 =
      (⟨1/2, (7/12)*(1/2), (1/12)*(1/2), (1/12)*(1/2), (1/48)*(1/2)⟩,
       ⟨1/2, (7/12)*(1/2), (1/12)*(1/2), (1/12)*(1/2), (1/48)*(1/2)⟩,
       ⟨1/2, (7/12)*(1/2), (1/12)*(1/2), (1/12)*(1/2), (1/48)*(1/2)⟩) :=
  uniform_cubic_coefficients 2 (by norm_num)

/-- C4: for strictly positive spacings `(dx, dy, dz)`, the quantity
`ry*rz + rz*rx + rx*ry` computed by the 3-D stencil builder is strictly
positive (hence nonzero), so the divisions producing `beta` and the
gammas never divide by zero. -/
theorem ckc_rdenom_pos (dx dy dz : ℚ) (hx : 0 < dx) (hy : 0 < dy) (hz : 0 < dz) :
    0 < CKC3D.ckc_rdenom dx dy dz ∧ CKC3D.ckc_rdenom dx dy dz ≠ 0 := by
  have hix : 0 < 1/dx := by positivity
  have hiy : 0 < 1/dy := by positivity
  have hiz : 0 < 1/dz := by positivity
  have hdelta : 0 < CKC3D.ckc_delta dx dy dz :=
    lt_of_lt_of_le hiz (le_max_right _ _)
  have hrx : 0 < CKC3D.ckc_rx dx dy dz :=
    mul_pos (div_pos hix hdelta) (div_pos hix hdelta)
  have hry : 0 < CKC3D.ckc_ry dx dy dz :=
    mul_pos (div_pos hiy hdelta) (div_pos hiy hdelta)
  have hrz : 0 < CKC3D.ckc_rz dx dy dz :=
    mul_pos (div_pos hiz hdelta) (div_pos hiz hdelta)
  have hpos : 0 < CKC3D.ckc_rdenom dx dy dz :=
    add_pos (add_pos (mul_pos hry hrz) (mul_pos hrz hrx)) (mul_pos hrx hry)
  exact ⟨hpos, ne_of_gt hpos⟩

/-- Witness for C4 at the concrete spacings `(1, 2, 3)`. -/
theorem ckc_rdenom_pos_witness :
    0 < CKC3D.ckc_rdenom 1 2 3 ∧ CKC3D.ckc_rdenom 1 2 3 ≠ 0 :=
  ckc_rdenom_pos 1 2 3 (by norm_num) (by norm_num) (by norm_num)

/-- C5: for every positive spacing configuration, both the upward and the
downward x-derivative of the linear field `F(i) = i·dx` are exactly `1`
at every grid point, in exact rational arithmetic, and the stencil
weights satisfy `alpha + 2·betaxy + 2·betaxz + 4·(gamma·inv_dx) = inv_dx`. -/
theorem linear_field_unit_slope (dx dy dz : ℚ)
    (hx : 0 < dx) (_hy : 0 < dy) (_hz : 0 < dz) (i j k : ℤ) :
    CKC3D.UpwardDx (fun a _ _ => (a : ℚ) * dx)
      (CKC3D.InitializeStencilCoefficients dx dy dz).1 i j k = 1 ∧
    CKC3D.DownwardDx (fun a _ _ => (a : ℚ) * dx)
      (CKC3D.InitializeStencilCoefficients dx dy dz).1 i j k = 1 ∧
    (CKC3D.InitializeStencilCoefficients dx dy dz).1.c1
      + 2 * (CKC3D.InitializeStencilCoefficients dx dy dz).1.c2
      + 2 * (CKC3D.InitializeStencilCoefficients dx dy dz).1.c3
      + 4 * (CKC3D.InitializeStencilCoefficients dx dy dz).1.c4
      = (CKC3D.InitializeStencilCoefficients dx dy dz).1.c0 := by
  have hd0 : dx ≠ 0 := ne_of_gt hx
  have hid : (CKC3D.InitializeStencilCoefficients dx dy dz).1.c1
      + 2 * (CKC3D.InitializeStencilCoefficients dx dy dz).1.c2
      + 2 * (CKC3D.InitializeStencilCoefficients dx dy dz).1.c3
      + 4 * (CKC3D.InitializeStencilCoefficients dx dy dz).1.c4
      = (CKC3D.InitializeStencilCoefficients dx dy dz).1.c0 := by
    simp only [CKC3D.InitializeStencilCoefficients, CKC3D.ckc_alphax,
      CKC3D.ckc_betaxy, CKC3D.ckc_betaxz]
    ring
  have hup : CKC3D.UpwardDx (fun a _ _ => (a : ℚ) * dx)
      (CKC3D.InitializeStencilCoefficients dx dy dz).1 i j k
      = ((CKC3D.InitializeStencilCoefficients dx dy dz).1.c1
        + 2 * (CKC3D.InitializeStencilCoefficients dx dy dz).1.c2
        + 2 * (CKC3D.InitializeStencilCoefficients dx dy dz).1.c3
        + 4 * (CKC3D.InitializeStencilCoefficients dx dy dz).1.c4) * dx := by
    simp only [CKC3D.UpwardDx]
    push_cast
    ring
  have hdown : CKC3D.DownwardDx (fun a _ _ => (a : ℚ) * dx)
      (CKC3D.InitializeStencilCoefficients dx dy dz).1 i j k
      = (CKC3D.InitializeStencilCoefficients dx dy dz).1.c0 * dx := by
    simp only [CKC3D.DownwardDx]
    push_cast
    ring
  have hc0 : (CKC3D.InitializeStencilCoefficients dx dy dz).1.c0 = 1/dx := rfl
  refine ⟨?_, ?_, hid⟩
  · rw [hup, hid, hc0]
    exact one_div_mul_cancel hd0
  · rw [hdown, hc0]
    exact one_div_mul_cancel hd0

/-- Witness for C5 at spacings `(1, 2, 3)` and grid point `(0, 0, 0)`. -/
theorem linear_field_unit_slope_witness :
    CKC3D.UpwardDx (fun a _ _ => (a : ℚ) * 1)
      (CKC3D.InitializeStencilCoefficients 1 2 3).1 0 0 0 = 1 ∧
    CKC3D.DownwardDx (fun a _ _ => (a : ℚ) * 1)
      (CKC3D.InitializeStencilCoefficients 1 2 3).1 0 0 0 = 1 ∧
    (CKC3D.InitializeStencilCoefficients 1 2 3).1.c1
      + 2 * (CKC3D.InitializeStencilCoefficients 1 2 3).1.c2
      + 2 * (CKC3D.InitializeStencilCoefficients 1 2 3).1.c3
      + 4 * (CKC3D.InitializeStencilCoefficients 1 2 3).1.c4
      = (CKC3D.InitializeStencilCoefficients 1 2 3).1.c0 :=
  linear_field_unit_slope 1 2 3 (by norm_num) (by norm_num) (by norm_num) 0 0 0

/-- C6: for every coefficient set and a globally constant field, all six
directional derivative operators return exactly `0` at every grid index,
in both the 3-D and the XZ configuration. -/
theorem constant_field_zero_derivative (c : ℚ) (cx cy cz : StencilCoefs) (i j k : ℤ) :
    CKC3D.UpwardDx (fun _ _ _ => c) cx i j k = 0 ∧
    CKC3D.UpwardDy (fun _ _ _ => c) cy i j k = 0 ∧
    CKC3D.UpwardDz (fun _ _ _ => c) cz i j k = 0 ∧
    CKC3D.DownwardDx (fun _ _ _ => c) cx i j k = 0 ∧
    CKC3D.DownwardDy (fun _ _ _ => c) cy i j k = 0 ∧
    CKC3D.DownwardDz (fun _ _ _ => c) cz i j k = 0 ∧
    CKCXZ.UpwardDx (fun _ _ _ => c) cx i j k = 0 ∧
    CKCXZ.UpwardDy (fun _ _ _ => c) cy i j k = 0 ∧
    CKCXZ.UpwardDz (fun _ _ _ => c) cz i j k = 0 ∧
    CKCXZ.DownwardDx (fun _ _ _ => c) cx i j k = 0 ∧
    CKCXZ.DownwardDy (fun _ _ _ => c) cy i j k = 0 ∧
    CKCXZ.DownwardDz (fun _ _ _ => c) cz i j k = 0 := by
  refine ⟨?_, ?_, ?_, ?_, ?_, ?_, ?_, ?_, ?_, ?_, ?_, ?_⟩ <;>
    (first
      | rfl
      | (simp only [CKC3D.UpwardDx, CKC3D.UpwardDy, CKC3D.UpwardDz,
          CKC3D.DownwardDx, CKC3D.DownwardDy, CKC3D.DownwardDz,
          CKCXZ.UpwardDx, CKCXZ.UpwardDz, CKCXZ.DownwardDx, CKCXZ.DownwardDz]
         ring))

/-- C7: in the reduced two-axis (XZ) configuration, `UpwardDy` and
`DownwardDy` return exactly `0` for every field, coefficient set and grid
index, and the builder forces every third-axis (y) coefficient of the
remaining operators to zero: stored `betaxy`, `gammax`, `alphay`,
`betayz`, `betayx`, `gammay`, `betazy` and `gammaz` all vanish. -/
theorem xz_absent_axis_zero (dx dy dz : ℚ) (F : ℤ → ℤ → ℤ → ℚ)
    (cy : StencilCoefs) (i j k : ℤ) :
    CKCXZ.UpwardDy F cy i j k = 0 ∧
    CKCXZ.DownwardDy F cy i j k = 0 ∧
    (CKCXZ.InitializeStencilCoefficients dx dy dz).1.c2 = 0 ∧
    (CKCXZ.InitializeStencilCoefficients dx dy dz).1.c4 = 0 ∧
    (CKCXZ.InitializeStencilCoefficients dx dy dz).2.1.c1 = 0 ∧
    (CKCXZ.InitializeStencilCoefficients dx dy dz).2.1.c2 = 0 ∧
    (CKCXZ.InitializeStencilCoefficients dx dy dz).2.1.c3 = 0 ∧
    (CKCXZ.InitializeStencilCoefficients dx dy dz).2.1.c4 = 0 ∧
    (CKCXZ.InitializeStencilCoefficients dx dy dz).2.2.c3 = 0 ∧
    (CKCXZ.InitializeStencilCoefficients dx dy dz).2.2.c4 = 0 := by
  refine ⟨rfl, rfl, rfl, ?_, rfl, rfl, rfl, ?_, rfl, ?_⟩ <;>
    simp [CKCXZ.InitializeStencilCoefficients]

/-- C3: `PairGenerationFilterFunc::operator()` returns `true` precisely
when the particle's optical-depth attribute is strictly negative, and
`false` precisely when it is zero or positive; being a pure function of
the tile data in this embedding, it modifies nothing. -/
theorem filter_iff_negative_depth (comp : ℕ) (ptd : SrcData) (i : ℕ) :
    (PairGenerationFilterFunc comp ptd i = true ↔ ptd.m_runtime_rdata comp i < 0) ∧
    (PairGenerationFilterFunc comp ptd i = false ↔ 0 ≤ ptd.m_runtime_rdata comp i) := by
  constructor
  · simp [PairGenerationFilterFunc]
  · simp [PairGenerationFilterFunc, not_lt]

/-- Reading back the component just written by `setR`. -/
theorem DstData.setR_same (d : DstData) (c i : ℕ) (v : ℚ) :
    (d.setR c i v).m_rdata c i = v := by
  simp [DstData.setR]

/-- `setR` leaves every other `(component, index)` pair unchanged. -/
theorem DstData.setR_other (d : DstData) (c i c2 i2 : ℕ) (v : ℚ)
    (h : ¬ (c2 = c ∧ i2 = i)) :
    (d.setR c i v).m_rdata c2 i2 = d.m_rdata c2 i2 := by
  simp [DstData.setR, h]

/-- C10: `PairGenerationTransformFunc::operator()` writes only the weight
and momentum components of the two destination slots and the id of the
source photon: every other destination component or slot is unchanged,
the source's real data and runtime data are untouched, and no id other
than the source's changes (the source id becomes `-1`). -/
theorem transform_frame (gen : BreitWheelerGeneratePairs)
    (dst1 dst2 : DstData) (src : SrcData) (i_src i_dst1 i_dst2 : ℕ)
    (c1 i1 c2 i2 j : ℕ)
    (h1 : (c1 ≠ PIdx.w ∧ c1 ≠ PIdx.ux ∧ c1 ≠ PIdx.uy ∧ c1 ≠ PIdx.uz) ∨ i1 ≠ i_dst1)
    (h2 : (c2 ≠ PIdx.w ∧ c2 ≠ PIdx.ux ∧ c2 ≠ PIdx.uy ∧ c2 ≠ PIdx.uz) ∨ i2 ≠ i_dst2)
    (hj : j ≠ i_src) :
    (PairGenerationTransformFunc gen dst1 dst2 src i_src i_dst1 i_dst2).1.m_rdata c1 i1
      = dst1.m_rdata c1 i1 ∧
    (PairGenerationTransformFunc gen dst1 dst2 src i_src i_dst1 i_dst2).2.1.m_rdata c2 i2
      = dst2.m_rdata c2 i2 ∧
    (PairGenerationTransformFunc gen dst1 dst2 src i_src i_dst1 i_dst2).2.2.m_rdata
      = src.m_rdata ∧
    (PairGenerationTransformFunc gen dst1 dst2 src i_src i_dst1 i_dst2).2.2.m_runtime_rdata
      = src.m_runtime_rdata ∧
    (PairGenerationTransformFunc gen dst1 dst2 src i_src i_dst1 i_dst2).2.2.m_aos_id j
      = src.m_aos_id j ∧
    (PairGenerationTransformFunc gen dst1 dst2 src i_src i_dst1 i_dst2).2.2.m_aos_id i_src
      = -1 := by
  have hmk : ∀ (d : DstData) (i0 : ℕ) (v1 v2 v3 v4 : ℚ) (c i : ℕ),
      ((c ≠ PIdx.w ∧ c ≠ PIdx.ux ∧ c ≠ PIdx.uy ∧ c ≠ PIdx.uz) ∨ i ≠ i0) →
      ((((d.setR PIdx.w i0 v1).setR PIdx.ux i0 v2).setR PIdx.uy i0 v3).setR
          PIdx.uz i0 v4).m_rdata c i = d.m_rdata c i := by
    intro d i0 v1 v2 v3 v4 c i h
    have hnot : ∀ (cc : ℕ), c ≠ cc ∨ i ≠ i0 → ¬ (c = cc ∧ i = i0) := by
      rintro cc (hc | hi) ⟨rfl, rfl⟩ <;> simp_all
    rcases h with ⟨hw, hux, huy, huz⟩ | hi
    · rw [DstData.setR_other _ _ _ _ _ _ (hnot _ (Or.inl huz)),
        DstData.setR_other _ _ _ _ _ _ (hnot _ (Or.inl huy)),
        DstData.setR_other _ _ _ _ _ _ (hnot _ (Or.inl hux)),
        DstData.setR_other _ _ _ _ _ _ (hnot _ (Or.inl hw))]
    · rw [DstData.setR_other _ _ _ _ _ _ (hnot _ (Or.inr hi)),
        DstData.setR_other _ _ _ _ _ _ (hnot _ (Or.inr hi)),
        DstData.setR_other _ _ _ _ _ _ (hnot _ (Or.inr hi)),
        DstData.setR_other _ _ _ _ _ _ (hnot _ (Or.inr hi))]
  refine ⟨hmk _ _ _ _ _ _ _ _ h1, hmk _ _ _ _ _ _ _ _ h2, rfl, rfl, ?_, ?_⟩
  · show (if j = i_src then (-1 : ℤ) else src.m_aos_id j) = src.m_aos_id j
    simp [hj]
  · show (if i_src = i_src then (-1 : ℤ) else src.m_aos_id i_src) = -1
    simp

/-- Witness for C10 at concrete tile data, destination slots 1 and 2,
off-target component `Ex`, off-target index 3 and spectator id 4. -/
theorem transform_frame_witness :
    (PairGenerationTransformFunc (fun _ _ _ _ _ _ _ _ _ _ => ⟨0,0,0,0,0,0,0,0⟩)
      ⟨fun _ _ => 5⟩ ⟨fun _ _ => 6⟩ ⟨fun _ _ => 7, fun _ _ => 8, fun _ => 9⟩
      0 1 2).1.m_rdata PIdx.Ex 1 = (DstData.mk (fun _ _ => 5)).m_rdata PIdx.Ex 1 ∧
    (PairGenerationTransformFunc (fun _ _ _ _ _ _ _ _ _ _ => ⟨0,0,0,0,0,0,0,0⟩)
      ⟨fun _ _ => 5⟩ ⟨fun _ _ => 6⟩ ⟨fun _ _ => 7, fun _ _ => 8, fun _ => 9⟩
      0 1 2).2.1.m_rdata PIdx.w 3 = (DstData.mk (fun _ _ => 6)).m_rdata PIdx.w 3 ∧
    (PairGenerationTransformFunc (fun _ _ _ _ _ _ _ _ _ _ => ⟨0,0,0,0,0,0,0,0⟩)
      ⟨fun _ _ => 5⟩ ⟨fun _ _ => 6⟩ ⟨fun _ _ => 7, fun _ _ => 8, fun _ => 9⟩
      0 1 2).2.2.m_rdata = (SrcData.mk (fun _ _ => 7) (fun _ _ => 8) (fun _ => 9)).m_rdata ∧
    (PairGenerationTransformFunc (fun _ _ _ _ _ _ _ _ _ _ => ⟨0,0,0,0,0,0,0,0⟩)
      ⟨fun _ _ => 5⟩ ⟨fun _ _ => 6⟩ ⟨fun _ _ => 7, fun _ _ => 8, fun _ => 9⟩
      0 1 2).2.2.m_runtime_rdata
      = (SrcData.mk (fun _ _ => 7) (fun _ _ => 8) (fun _ => 9)).m_runtime_rdata ∧
    (PairGenerationTransformFunc (fun _ _ _ _ _ _ _ _ _ _ => ⟨0,0,0,0,0,0,0,0⟩)
      ⟨fun _ _ => 5⟩ ⟨fun _ _ => 6⟩ ⟨fun _ _ => 7, fun _ _ => 8, fun _ => 9⟩
      0 1 2).2.2.m_aos_id 4 = (SrcData.mk (fun _ _ => 7) (fun _ _ => 8) (fun _ => 9)).m_aos_id 4 ∧
    (PairGenerationTransformFunc (fun _ _ _ _ _ _ _ _ _ _ => ⟨0,0,0,0,0,0,0,0⟩)
      ⟨fun _ _ => 5⟩ ⟨fun _ _ => 6⟩ ⟨fun _ _ => 7, fun _ _ => 8, fun _ => 9⟩
      0 1 2).2.2.m_aos_id 0 = -1 :=
  transform_frame _ _ _ _ 0 1 2 PIdx.Ex 1 PIdx.w 3 4
    (Or.inl (by refine ⟨?_, ?_, ?_, ?_⟩ <;> decide))
    (Or.inr (by decide)) (by decide)

/-- C8: end to end on one photon of weight 1 whose collaborator (test
double) halves the momentum and returns weight 1 for each daughter: the
photon passes the filter, each destination slot receives weight 1 and the
stored momentum components halved (the transform multiplies stored values
by the electron mass before the collaborator call and divides its outputs
by it afterwards), and the source photon's id is negative. -/
theorem single_photon_end_to_end (comp : ℕ) (src : SrcData) (dst1 dst2 : DstData)
    (i_src i_dst1 i_dst2 : ℕ)
    (hw : src.m_rdata PIdx.w i_src = 1)
    (hdepth : src.m_runtime_rdata comp i_src < 0) :
    PairGenerationFilterFunc comp src i_src = true ∧
    (PairGenerationTransformFunc halfPairGen dst1 dst2 src i_src i_dst1 i_dst2).1.m_rdata
      PIdx.w i_dst1 = 1 ∧
    (PairGenerationTransformFunc halfPairGen dst1 dst2 src i_src i_dst1 i_dst2).1.m_rdata
      PIdx.ux i_dst1 = src.m_rdata PIdx.ux i_src / 2 ∧
    (PairGenerationTransformFunc halfPairGen dst1 dst2 src i_src i_dst1 i_dst2).1.m_rdata
      PIdx.uy i_dst1 = src.m_rdata PIdx.uy i_src / 2 ∧
    (PairGenerationTransformFunc halfPairGen dst1 dst2 src i_src i_dst1 i_dst2).1.m_rdata
      PIdx.uz i_dst1 = src.m_rdata PIdx.uz i_src / 2 ∧
    (PairGenerationTransformFunc halfPairGen dst1 dst2 src i_src i_dst1 i_dst2).2.1.m_rdata
      PIdx.w i_dst2 = 1 ∧
    (PairGenerationTransformFunc halfPairGen dst1 dst2 src i_src i_dst1 i_dst2).2.1.m_rdata
      PIdx.ux i_dst2 = src.m_rdata PIdx.ux i_src / 2 ∧
    (PairGenerationTransformFunc halfPairGen dst1 dst2 src i_src i_dst1 i_dst2).2.1.m_rdata
      PIdx.uy i_dst2 = src.m_rdata PIdx.uy i_src / 2 ∧
    (PairGenerationTransformFunc halfPairGen dst1 dst2 src i_src i_dst1 i_dst2).2.1.m_rdata
      PIdx.uz i_dst2 = src.m_rdata PIdx.uz i_src / 2 ∧
    (PairGenerationTransformFunc halfPairGen dst1 dst2 src i_src i_dst1 i_dst2).2.2.m_aos_id
      i_src < 0 := by
  have hme : m_e ≠ 0 := by norm_num [m_e]
  refine ⟨by simp [PairGenerationFilterFunc, hdepth], ?_, ?_, ?_, ?_, ?_, ?_, ?_, ?_, ?_⟩ <;>
    simp [PairGenerationTransformFunc, DstData.setR, halfPairGen, hw,
      PIdx.w, PIdx.ux, PIdx.uy, PIdx.uz] <;>
    (field_simp
     try ring)

/-- Witness for C8 on a concrete photon with stored momentum
`(6, 10, 14)`, weight 1 and optical depth `-1`. -/
theorem single_photon_end_to_end_witness :
    PairGenerationFilterFunc 0
      ⟨fun c _ => if c = 0 then 1 else if c = 1 then 6 else if c = 2 then 10 else
        if c = 3 then 14 else 3, fun _ _ => -1, fun _ => 1⟩ 0 = true ∧
    (PairGenerationTransformFunc halfPairGen ⟨fun _ _ => 0⟩ ⟨fun _ _ => 0⟩
      ⟨fun c _ => if c = 0 then 1 else if c = 1 then 6 else if c = 2 then 10 else
        if c = 3 then 14 else 3, fun _ _ => -1, fun _ => 1⟩ 0 0 0).1.m_rdata
      PIdx.w 0 = 1 ∧
    (PairGenerationTransformFunc halfPairGen ⟨fun _ _ => 0⟩ ⟨fun _ _ => 0⟩
      ⟨fun c _ => if c = 0 then 1 else if c = 1 then 6 else if c = 2 then 10 else
        if c = 3 then 14 else 3, fun _ _ => -1, fun _ => 1⟩ 0 0 0).1.m_rdata
      PIdx.ux 0 = (SrcData.mk (fun c _ => if c = 0 then 1 else if c = 1 then 6 else
        if c = 2 then 10 else if c = 3 then 14 else 3) (fun _ _ => -1)
        (fun _ => 1)).m_rdata PIdx.ux 0 / 2 ∧
    (PairGenerationTransformFunc halfPairGen ⟨fun _ _ => 0⟩ ⟨fun _ _ => 0⟩
      ⟨fun c _ => if c = 0 then 1 else if c = 1 then 6 else if c = 2 then 10 else
        if c = 3 then 14 else 3, fun _ _ => -1, fun _ => 1⟩ 0 0 0).1.m_rdata
      PIdx.uy 0 = (SrcData.mk (fun c _ => if c = 0 then 1 else if c = 1 then 6 else
        if c = 2 then 10 else if c = 3 then 14 else 3) (fun _ _ => -1)
        (fun _ => 1)).m_rdata PIdx.uy 0 / 2 ∧
    (PairGenerationTransformFunc halfPairGen ⟨fun _ _ => 0⟩ ⟨fun _ _ => 0⟩
      ⟨fun c _ => if c = 0 then 1 else if c = 1 then 6 else if c = 2 then 10 else
        if c = 3 then 14 else 3, fun _ _ => -1, fun _ => 1⟩ 0 0 0).1.m_rdata
      PIdx.uz 0 = (SrcData.mk (fun c _ => if c = 0 then 1 else if c = 1 then 6 else
        if c = 2 then 10 else if c = 3 then 14 else 3) (fun _ _ => -1)
        (fun _ => 1)).m_rdata PIdx.uz 0 / 2 ∧
    (PairGenerationTransformFunc halfPairGen ⟨fun _ _ => 0⟩ ⟨fun _ _ => 0⟩
      ⟨fun c _ => if c = 0 then 1 else if c = 1 then 6 else if c = 2 then 10 else
        if c = 3 then 14 else 3, fun _ _ => -1, fun _ => 1⟩ 0 0 0).2.1.m_rdata
      PIdx.w 0 = 1 ∧
    (PairGenerationTransformFunc halfPairGen ⟨fun _ _ => 0⟩ ⟨fun _ _ => 0⟩
      ⟨fun c _ => if c = 0 then 1 else if c = 1 then 6 else if c = 2 then 10 else
        if c = 3 then 14 else 3, fun _ _ => -1, fun _ => 1⟩ 0 0 0).2.1.m_rdata
      PIdx.ux 0 = (SrcData.mk (fun c _ => if c = 0 then 1 else if c = 1 then 6 else
        if c = 2 then 10 else if c = 3 then 14 else 3) (fun _ _ => -1)
        (fun _ => 1)).m_rdata PIdx.ux 0 / 2 ∧
    (PairGenerationTransformFunc halfPairGen ⟨fun _ _ => 0⟩ ⟨fun _ _ => 0⟩
      ⟨fun c _ => if c = 0 then 1 else if c = 1 then 6 else if c = 2 then 10 else
        if c = 3 then 14 else 3, fun _ _ => -1, fun _ => 1⟩ 0 0 0).2.1.m_rdata
      PIdx.uy 0 = (SrcData.mk (fun c _ => if c = 0 then 1 else if c = 1 then 6 else
        if c = 2 then 10 else if c = 3 then 14 else 3) (fun _ _ => -1)
        (fun _ => 1)).m_rdata PIdx.uy 0 / 2 ∧
    (PairGenerationTransformFunc halfPairGen ⟨fun _ _ => 0⟩ ⟨fun _ _ => 0⟩
      ⟨fun c _ => if c = 0 then 1 else if c = 1 then 6 else if c = 2 then 10 else
        if c = 3 then 14 else 3, fun _ _ => -1, fun _ => 1⟩ 0 0 0).2.1.m_rdata
      PIdx.uz 0 = (SrcData.mk (fun c _ => if c = 0 then 1 else if c = 1 then 6 else
        if c = 2 then 10 else if c = 3 then 14 else 3) (fun _ _ => -1)
        (fun _ => 1)).m_rdata PIdx.uz 0 / 2 ∧
    (PairGenerationTransformFunc halfPairGen ⟨fun _ _ => 0⟩ ⟨fun _ _ => 0⟩
      ⟨fun c _ => if c = 0 then 1 else if c = 1 then 6 else if c = 2 then 10 else
        if c = 3 then 14 else 3, fun _ _ => -1, fun _ => 1⟩ 0 0 0).2.2.m_aos_id 0 < 0 :=
  single_photon_end_to_end 0
    ⟨fun c _ => if c = 0 then 1 else if c = 1 then 6 else if c = 2 then 10 else
      if c = 3 then 14 else 3, fun _ _ => -1, fun _ => 1⟩
    ⟨fun _ _ => 0⟩ ⟨fun _ _ => 0⟩ 0 0 0 (by norm_num [PIdx.w]) (by norm_num)

/-- Processing any list of flagged photons never changes the source
tile's real data. -/
theorem processFlagged_src_rdata (gen : BreitWheelerGeneratePairs) (l : List ℕ) :
    ∀ n d1 d2 s, ((processFlagged gen l n d1 d2 s).2.2).m_rdata = s.m_rdata := by
  induction l with
  | nil => intro n d1 d2 s; rfl
  | cons hd tl ih => intro n d1 d2 s; exact ih (n+1) _ _ _

/-- Destination slots below the starting slot are never written. -/
theorem processFlagged_below_start (gen : BreitWheelerGeneratePairs) (l : List ℕ) :
    ∀ n d1 d2 s c i, i < n →
      (processFlagged gen l n d1 d2 s).1.m_rdata c i = d1.m_rdata c i ∧
      (processFlagged gen l n d1 d2 s).2.1.m_rdata c i = d2.m_rdata c i := by
  induction l with
  | nil => intro n d1 d2 s c i _; exact ⟨rfl, rfl⟩
  | cons hd tl ih =>
      intro n d1 d2 s c i hi
      have hne : ∀ cc, ¬ (c = cc ∧ i = n) := by
        rintro cc ⟨_, rfl⟩; exact lt_irrefl i hi
      have h1 := ih (n+1) (PairGenerationTransformFunc gen d1 d2 s hd n n).1
        (PairGenerationTransformFunc gen d1 d2 s hd n n).2.1
        (PairGenerationTransformFunc gen d1 d2 s hd n n).2.2 c i (Nat.lt_succ_of_lt hi)
      refine ⟨h1.1.trans ?_, h1.2.trans ?_⟩ <;>
        (show (DstData.setR _ _ _ _).m_rdata c i = _
         rw [DstData.setR_other _ _ _ _ _ _ (hne _), DstData.setR_other _ _ _ _ _ _ (hne _),
           DstData.setR_other _ _ _ _ _ _ (hne _), DstData.setR_other _ _ _ _ _ _ (hne _)])

/-- Destination slots at or beyond `start + length` are never written. -/
theorem processFlagged_beyond_end (gen : BreitWheelerGeneratePairs) (l : List ℕ) :
    ∀ n d1 d2 s c i, n + l.length ≤ i →
      (processFlagged gen l n d1 d2 s).1.m_rdata c i = d1.m_rdata c i ∧
      (processFlagged gen l n d1 d2 s).2.1.m_rdata c i = d2.m_rdata c i := by
  induction l with
  | nil => intro n d1 d2 s c i _; exact ⟨rfl, rfl⟩
  | cons hd tl ih =>
      intro n d1 d2 s c i hi
      have hn : n < i := by simp [List.length] at hi; omega
      have hne : ∀ cc, ¬ (c = cc ∧ i = n) := by
        rintro cc ⟨_, rfl⟩; exact lt_irrefl i hn
      have h1 := ih (n+1) (PairGenerationTransformFunc gen d1 d2 s hd n n).1
        (PairGenerationTransformFunc gen d1 d2 s hd n n).2.1
        (PairGenerationTransformFunc gen d1 d2 s hd n n).2.2 c i (by simp [List.length] at hi ⊢; omega)
      refine ⟨h1.1.trans ?_, h1.2.trans ?_⟩ <;>
        (show (DstData.setR _ _ _ _).m_rdata c i = _
         rw [DstData.setR_other _ _ _ _ _ _ (hne _), DstData.setR_other _ _ _ _ _ _ (hne _),
           DstData.setR_other _ _ _ _ _ _ (hne _), DstData.setR_other _ _ _ _ _ _ (hne _)])

/-- The weight written into destination slot `start + m` is the daughter
weight the collaborator returns for the `m`-th flagged photon. -/
theorem processFlagged_weight_at (gen : BreitWheelerGeneratePairs) (l : List ℕ) :
    ∀ n d1 d2 s m, m < l.length →
      (processFlagged gen l n d1 d2 s).1.m_rdata PIdx.w (n+m)
        = (callProducts gen s (l.getD m 0)).e_w ∧
      (processFlagged gen l n d1 d2 s).2.1.m_rdata PIdx.w (n+m)
        = (callProducts gen s (l.getD m 0)).p_w := by
  induction l with
  | nil => intro n d1 d2 s m hm; simp at hm
  | cons hd tl ih =>
      intro n d1 d2 s m hm
      match m with
      | 0 =>
          have hb := processFlagged_below_start gen tl (n+1)
            (PairGenerationTransformFunc gen d1 d2 s hd n n).1
            (PairGenerationTransformFunc gen d1 d2 s hd n n).2.1
            (PairGenerationTransformFunc gen d1 d2 s hd n n).2.2 PIdx.w (n+0)
            (by omega)
          refine ⟨hb.1.trans ?_, hb.2.trans ?_⟩ <;>
            (show (DstData.setR _ _ _ _).m_rdata PIdx.w (n+0) = _
             rw [DstData.setR_other _ _ _ _ _ _ (by rintro ⟨h, _⟩; exact absurd h (by decide)),
               DstData.setR_other _ _ _ _ _ _ (by rintro ⟨h, _⟩; exact absurd h (by decide)),
               DstData.setR_other _ _ _ _ _ _ (by rintro ⟨h, _⟩; exact absurd h (by decide))]
             rw [Nat.add_zero]
             exact DstData.setR_same _ _ _ _)
      | Nat.succ m2 =>
          have hmt : m2 < tl.length := by simp [List.length] at hm; omega
          have := ih (n+1) (PairGenerationTransformFunc gen d1 d2 s hd n n).1
            (PairGenerationTransformFunc gen d1 d2 s hd n n).2.1
            (PairGenerationTransformFunc gen d1 d2 s hd n n).2.2 m2 hmt
          have harith : n + 1 + m2 = n + (m2 + 1) := by omega
          rw [harith] at this
          exact this

/-- Every processed photon's id ends up `-1`. -/
theorem processFlagged_id (gen : BreitWheelerGeneratePairs) (l : List ℕ) :
    ∀ n d1 d2 s idx, (idx ∈ l ∨ s.m_aos_id idx = -1) →
      (processFlagged gen l n d1 d2 s).2.2.m_aos_id idx = -1 := by
  induction l with
  | nil =>
      intro n d1 d2 s idx h
      rcases h with h | h
      · simp at h
      · exact h
  | cons hd tl ih =>
      intro n d1 d2 s idx h
      apply ih (n+1) _ _ _ idx
      by_cases hix : idx = hd
      · right
        show (if idx = hd then (-1 : ℤ) else s.m_aos_id idx) = -1
        simp [hix]
      · rcases h with h | h
        · left
          rcases List.mem_cons.mp h with h2 | h2
          · exact absurd h2 hix
          · exact h2
        · right
          show (if idx = hd then (-1 : ℤ) else s.m_aos_id idx) = -1
          simp [hix, h]

/-- C2: processing `N` flagged photons, each once with fresh destination
slots, writes exactly `N` particles into each destination species (slot
`m < N` holds the daughter weights of the `m`-th photon's collaborator
call; slots `≥ N` are untouched); if the collaborator conserves weight,
the sum of all destination weights equals the sum of the `N` source
weights; and every processed photon's id is set to `-1`. -/
theorem pair_generation_bulk (gen : BreitWheelerGeneratePairs) (srcs : List ℕ)
    (d1 d2 : DstData) (s : SrcData) (m c i idx : ℕ)
    (hcons : ∀ px py pz ex ey ez bx by2 bz w,
      (gen px py pz ex ey ez bx by2 bz w).e_w + (gen px py pz ex ey ez bx by2 bz w).p_w = w)
    (hm : m < srcs.length) (hi : srcs.length ≤ i) (hidx : idx ∈ srcs) :
    (processFlagged gen srcs 0 d1 d2 s).1.m_rdata PIdx.w m
        = (callProducts gen s (srcs.getD m 0)).e_w ∧
    (processFlagged gen srcs 0 d1 d2 s).2.1.m_rdata PIdx.w m
        = (callProducts gen s (srcs.getD m 0)).p_w ∧
    (processFlagged gen srcs 0 d1 d2 s).1.m_rdata c i = d1.m_rdata c i ∧
    (processFlagged gen srcs 0 d1 d2 s).2.1.m_rdata c i = d2.m_rdata c i ∧
    Finset.sum (Finset.range srcs.length)
        (fun m2 => (processFlagged gen srcs 0 d1 d2 s).1.m_rdata PIdx.w m2
          + (processFlagged gen srcs 0 d1 d2 s).2.1.m_rdata PIdx.w m2)
      = Finset.sum (Finset.range srcs.length)
          (fun m2 => s.m_rdata PIdx.w (srcs.getD m2 0)) ∧
    (processFlagged gen srcs 0 d1 d2 s).2.2.m_aos_id idx = -1 := by
  have hw := processFlagged_weight_at gen srcs 0 d1 d2 s m hm
  rw [Nat.zero_add] at hw
  have hbeyond := processFlagged_beyond_end gen srcs 0 d1 d2 s c i
    (by rw [Nat.zero_add]; exact hi)
  refine ⟨hw.1, hw.2, hbeyond.1, hbeyond.2, ?_, processFlagged_id gen srcs 0 d1 d2 s idx
    (Or.inl hidx)⟩
  apply Finset.sum_congr rfl
  intro m2 hm2
  have hm2' : m2 < srcs.length := Finset.mem_range.mp hm2
  have hw2 := processFlagged_weight_at gen srcs 0 d1 d2 s m2 hm2'
  rw [Nat.zero_add] at hw2
  rw [hw2.1, hw2.2]
  exact hcons _ _ _ _ _ _ _ _ _ _

/-- Witness for C2: one flagged photon (index 5) with weight 3 and a
collaborator splitting the weight in half. -/
theorem pair_generation_bulk_witness :
    (processFlagged (fun px py pz _ _ _ _ _ _ w => ⟨px, py, pz, 0, 0, 0, w/2, w/2⟩)
        [5] 0 ⟨fun _ _ => 0⟩ ⟨fun _ _ => 0⟩ ⟨fun _ _ => 3, fun _ _ => -1, fun _ => 7⟩).1.m_rdata
        PIdx.w 0
      = (callProducts (fun px py pz _ _ _ _ _ _ w => ⟨px, py, pz, 0, 0, 0, w/2, w/2⟩)
          ⟨fun _ _ => 3, fun _ _ => -1, fun _ => 7⟩ ([5].getD 0 0)).e_w ∧
    (processFlagged (fun px py pz _ _ _ _ _ _ w => ⟨px, py, pz, 0, 0, 0, w/2, w/2⟩)
        [5] 0 ⟨fun _ _ => 0⟩ ⟨fun _ _ => 0⟩ ⟨fun _ _ => 3, fun _ _ => -1, fun _ => 7⟩).2.1.m_rdata
        PIdx.w 0
      = (callProducts (fun px py pz _ _ _ _ _ _ w => ⟨px, py, pz, 0, 0, 0, w/2, w/2⟩)
          ⟨fun _ _ => 3, fun _ _ => -1, fun _ => 7⟩ ([5].getD 0 0)).p_w ∧
    (processFlagged (fun px py pz _ _ _ _ _ _ w => ⟨px, py, pz, 0, 0, 0, w/2, w/2⟩)
        [5] 0 ⟨fun _ _ => 0⟩ ⟨fun _ _ => 0⟩ ⟨fun _ _ => 3, fun _ _ => -1, fun _ => 7⟩).1.m_rdata
        PIdx.Ex 1 = (DstData.mk (fun _ _ => 0)).m_rdata PIdx.Ex 1 ∧
    (processFlagged (fun px py pz _ _ _ _ _ _ w => ⟨px, py, pz, 0, 0, 0, w/2, w/2⟩)
        [5] 0 ⟨fun _ _ => 0⟩ ⟨fun _ _ => 0⟩ ⟨fun _ _ => 3, fun _ _ => -1, fun _ => 7⟩).2.1.m_rdata
        PIdx.Ex 1 = (DstData.mk (fun _ _ => 0)).m_rdata PIdx.Ex 1 ∧
    Finset.sum (Finset.range ([5] : List ℕ).length)
        (fun m2 => (processFlagged (fun px py pz _ _ _ _ _ _ w => ⟨px, py, pz, 0, 0, 0, w/2, w/2⟩)
            [5] 0 ⟨fun _ _ => 0⟩ ⟨fun _ _ => 0⟩ ⟨fun _ _ => 3, fun _ _ => -1, fun _ => 7⟩).1.m_rdata PIdx.w m2
          + (processFlagged (fun px py pz _ _ _ _ _ _ w => ⟨px, py, pz, 0, 0, 0, w/2, w/2⟩)
            [5] 0 ⟨fun _ _ => 0⟩ ⟨fun _ _ => 0⟩ ⟨fun _ _ => 3, fun _ _ => -1, fun _ => 7⟩).2.1.m_rdata PIdx.w m2)
      = Finset.sum (Finset.range ([5] : List ℕ).length)
          (fun m2 => (SrcData.mk (fun _ _ => 3) (fun _ _ => -1) (fun _ => 7)).m_rdata
            PIdx.w (([5] : List ℕ).getD m2 0)) ∧
    (processFlagged (fun px py pz _ _ _ _ _ _ w => ⟨px, py, pz, 0, 0, 0, w/2, w/2⟩)
        [5] 0 ⟨fun _ _ => 0⟩ ⟨fun _ _ => 0⟩ ⟨fun _ _ => 3, fun _ _ => -1, fun _ => 7⟩).2.2.m_aos_id
        5 = -1 :=
  pair_generation_bulk (fun px py pz _ _ _ _ _ _ w => ⟨px, py, pz, 0, 0, 0, w/2, w/2⟩)
    [5] ⟨fun _ _ => 0⟩ ⟨fun _ _ => 0⟩ ⟨fun _ _ => 3, fun _ _ => -1, fun _ => 7⟩ 0 PIdx.Ex 1 5
    (fun _ _ _ _ _ _ _ _ _ w => add_halves w) (by decide) (by decide) (by decide)

/-- Each registration increments `NumRealComps()` by one. -/
theorem registerAll_num_real (names : List String) :
    ∀ s, (registerAll s names).num_real = s.num_real + names.length := by
  induction names with
  | nil => intro s; simp [registerAll]
  | cons hd tl ih =>
      intro s
      show (registerAll (AddRealComp s hd) tl).num_real = _
      rw [ih]
      simp [AddRealComp, List.length]
      omega

/-- Registrations of other names never touch a name's map entries. -/
theorem registerAll_not_mem (names : List String) :
    ∀ s name, name ∉ names →
      (registerAll s names).particle_comps name = s.particle_comps name ∧
      (registerAll s names).particle_runtime_comps name = s.particle_runtime_comps name := by
  induction names with
  | nil => intro s name _; exact ⟨rfl, rfl⟩
  | cons hd tl ih =>
      intro s name hmem
      have hne : name ≠ hd := fun h => hmem (h ▸ List.mem_cons_self hd tl)
      have htl : name ∉ tl := fun h => hmem (List.mem_cons_of_mem hd h)
      have := ih (AddRealComp s hd) name htl
      refine ⟨this.1.trans ?_, this.2.trans ?_⟩ <;> simp [AddRealComp, hne]

/-- After its own registration (the `m`-th), a name's slot equals the
component count at registration time, and its runtime slot that count
minus `PIdx::nattribs`. -/
theorem registerAll_take_slot (names : List String) :
    ∀ s m, m < names.length →
      (registerAll s (names.take (m+1))).particle_comps (names.getD m "")
        = some ((s.num_real : ℤ) + m) ∧
      (registerAll s (names.take (m+1))).particle_runtime_comps (names.getD m "")
        = some ((s.num_real : ℤ) + m - (PIdx.nattribs : ℤ)) := by
  induction names with
  | nil => intro s m hm; simp at hm
  | cons hd tl ih =>
      intro s m hm
      match m with
      | 0 =>
          refine ⟨?_, ?_⟩ <;> simp [registerAll, AddRealComp]
      | Nat.succ m2 =>
          have hmt : m2 < tl.length := by simp [List.length] at hm; omega
          have htake : (hd :: tl).take (m2+1+1) = hd :: tl.take (m2+1) := rfl
          have hgetD : (hd :: tl).getD (m2+1) "" = tl.getD m2 "" := rfl
          rw [htake, hgetD]
          show (registerAll (AddRealComp s hd) (tl.take (m2+1))).particle_comps _ = _ ∧
            (registerAll (AddRealComp s hd) (tl.take (m2+1))).particle_runtime_comps _ = _
          have := ih (AddRealComp s hd) m2 hmt
          refine ⟨this.1.trans ?_, this.2.trans ?_⟩ <;>
            (congr 1
             simp only [AddRealComp]
             push_cast
             ring)

/-- With pairwise distinct names, the slot assigned at registration is
still recorded after all remaining registrations. -/
theorem registerAll_stable_slot (names : List String) :
    ∀ s m, m < names.length → names.Nodup →
      (registerAll s names).particle_comps (names.getD m "")
        = some ((s.num_real : ℤ) + m) ∧
      (registerAll s names).particle_runtime_comps (names.getD m "")
        = some ((s.num_real : ℤ) + m - (PIdx.nattribs : ℤ)) := by
  induction names with
  | nil => intro s m hm _; simp at hm
  | cons hd tl ih =>
      intro s m hm hnd
      have hhd : hd ∉ tl := (List.nodup_cons.mp hnd).1
      have hndtl : tl.Nodup := (List.nodup_cons.mp hnd).2
      match m with
      | 0 =>
          have := registerAll_not_mem tl (AddRealComp s hd) hd hhd
          show (registerAll (AddRealComp s hd) tl).particle_comps hd = _ ∧
            (registerAll (AddRealComp s hd) tl).particle_runtime_comps hd = _
          refine ⟨this.1.trans ?_, this.2.trans ?_⟩ <;> simp [AddRealComp]
      | Nat.succ m2 =>
          have hmt : m2 < tl.length := by simp [List.length] at hm; omega
          have hgetD : (hd :: tl).getD (m2+1) "" = tl.getD m2 "" := rfl
          rw [hgetD]
          have := ih (AddRealComp s hd) m2 hmt hndtl
          refine ⟨this.1.trans ?_, this.2.trans ?_⟩ <;>
            (congr 1
             simp only [AddRealComp]
             push_cast
             ring)

/-- C9, counterexample: registering the same name twice changes the slot
recorded for it — after `AddRealComp("a")` the slot of `"a"` is 10, but a
second `AddRealComp("a")` overwrites it with 11, so a slot once assigned
to a name is not, in general, unchanged by later registrations. -/
theorem addRealComp_rereg_changes_slot :
    (registerAll initPCState ["a"]).particle_comps "a" = some 10 ∧
    (registerAll initPCState ["a", "a"]).particle_comps "a" = some 11 ∧
    (registerAll initPCState ["a", "a"]).particle_comps "a"
      ≠ (registerAll initPCState ["a"]).particle_comps "a" := by
  refine ⟨?_, ?_, ?_⟩ <;>
    simp [registerAll, AddRealComp, initPCState, PIdx.nattribs]

/-- C9, amended: every attribute registered through `AddRealComp` is
recorded in `particle_comps` at slot `NumRealComps()` at registration
time (the `m`-th registration gets slot `nattribs + m`, so successive
slots are distinct, strictly increasing and at least `PIdx::nattribs`),
in `particle_runtime_comps` at that slot minus `PIdx::nattribs`, and —
provided the registered names are pairwise distinct — the slot recorded
for a name is never changed by later registrations. -/
theorem addRealComp_slot_invariants (names : List String) (m : ℕ)
    (hm : m < names.length) (hnd : names.Nodup) :
    (registerAll initPCState (names.take (m+1))).particle_comps (names.getD m "")
      = some ((PIdx.nattribs : ℤ) + m) ∧
    (registerAll initPCState (names.take (m+1))).particle_runtime_comps (names.getD m "")
      = some (m : ℤ) ∧
    (registerAll initPCState (names.take (m+1))).num_real = PIdx.nattribs + (m+1) ∧
    (PIdx.nattribs : ℤ) ≤ (PIdx.nattribs : ℤ) + m ∧
    (registerAll initPCState names).particle_comps (names.getD m "")
      = some ((PIdx.nattribs : ℤ) + m) ∧
    (registerAll initPCState names).particle_runtime_comps (names.getD m "")
      = some (m : ℤ) := by
  have h1 := registerAll_take_slot names initPCState m hm
  have h2 := registerAll_stable_slot names initPCState m hm hnd
  have hnum : initPCState.num_real = PIdx.nattribs := rfl
  rw [hnum] at h1 h2
  have hz : ((PIdx.nattribs : ℤ) + m - (PIdx.nattribs : ℤ)) = (m : ℤ) := by ring
  rw [hz] at h1 h2
  refine ⟨h1.1, h1.2, ?_, by omega, h2.1, h2.2⟩
  rw [registerAll_num_real, hnum]
  congr 1
  exact List.length_take_of_le (by omega)

/-- Witness for the amended C9 with names `["a", "b"]` and `m = 1`. -/
theorem addRealComp_slot_invariants_witness :
    (registerAll initPCState (["a", "b"].take (1+1))).particle_comps (["a", "b"].getD 1 "")
      = some ((PIdx.nattribs : ℤ) + 1) ∧
    (registerAll initPCState (["a", "b"].take (1+1))).particle_runtime_comps
      (["a", "b"].getD 1 "") = some (1 : ℤ) ∧
    (registerAll initPCState (["a", "b"].take (1+1))).num_real = PIdx.nattribs + (1+1) ∧
    (PIdx.nattribs : ℤ) ≤ (PIdx.nattribs : ℤ) + 1 ∧
    (registerAll initPCState ["a", "b"]).particle_comps (["a", "b"].getD 1 "")
      = some ((PIdx.nattribs : ℤ) + 1) ∧
    (registerAll initPCState ["a", "b"]).particle_runtime_comps (["a", "b"].getD 1 "")
      = some (1 : ℤ) :=
  addRealComp_slot_invariants ["a", "b"] 1 (by decide) (by decide)

end WarpX
